import Mathlib

/-!
Shallow embedding of the MPS Gamma special-function kernels
(aten/src/ATen/native/mps/operations/Gamma.mm) over exact real numbers.

Metal `float` arithmetic is modelled by real arithmetic; decimal float
literals of the source are read as exact decimal rationals.  The IEEE
special values (signed infinities, NaN) that the source produces through
explicit guards are modelled by the `Fl` result type, and the signed zero
of a kernel input by the `SFl` input type.  Metal builtins are mapped to
their mathematical counterparts: `exp`/`log`/`sin`/`tan` to `Real.exp`,
`Real.log`, `Real.sin`, `Real.tan`, `pow` to `Real.rpow`, `sinpi x` to
`Real.sin (Real.pi * x)`, `trunc` to rounding toward zero, and `fract x`
to `x - ⌊x⌋`.  The host-side operator entry points and the program /
pipeline caches are modelled as explicit state-passing functions.
-/

noncomputable section

/-- Value of a Metal float expression: a finite real, a signed infinity, or NaN. -/
inductive Fl where
  | real (x : ℝ)
  | posInf
  | negInf
  | nan

/-- Multiplication of float values: finite values multiply exactly; the
    cases involving infinities and NaN follow the IEEE 754 rules. -/
def Fl.mul : Fl → Fl → Fl
  | Fl.nan, _ => Fl.nan
  | _, Fl.nan => Fl.nan
  | Fl.real a, Fl.real b => Fl.real (a * b)
  | Fl.real a, Fl.posInf => if 0 < a then Fl.posInf else if a < 0 then Fl.negInf else Fl.nan
  | Fl.real a, Fl.negInf => if 0 < a then Fl.negInf else if a < 0 then Fl.posInf else Fl.nan
  | Fl.posInf, Fl.real b => if 0 < b then Fl.posInf else if b < 0 then Fl.negInf else Fl.nan
  | Fl.negInf, Fl.real b => if 0 < b then Fl.negInf else if b < 0 then Fl.posInf else Fl.nan
  | Fl.posInf, Fl.posInf => Fl.posInf
  | Fl.posInf, Fl.negInf => Fl.negInf
  | Fl.negInf, Fl.posInf => Fl.negInf
  | Fl.negInf, Fl.negInf => Fl.posInf

/-- IEEE `exp` lifted to float values (`exp(+inf) = +inf`, `exp(-inf) = 0`). -/
def Fl.exp : Fl → Fl
  | Fl.real r => Fl.real (Real.exp r)
  | Fl.posInf => Fl.posInf
  | Fl.negInf => Fl.real 0
  | Fl.nan => Fl.nan

/-- Kernel input float: a signed zero or a finite value.  `fin x` with
    `x = 0` stands for `+0`; `-0` is `zero true`. -/
inductive SFl where
  | zero (neg : Bool)
  | fin (x : ℝ)

/-- The real number an input float stands for (both zeros map to `0`). -/
def SFl.toReal : SFl → ℝ
  | SFl.zero _ => 0
  | SFl.fin x => x

/-- IEEE negation of an input float, preserving the sign of zero. -/
def SFl.neg : SFl → SFl
  | SFl.zero b => SFl.zero (!b)
  | SFl.fin x => if x = 0 then SFl.zero true else SFl.fin (-x)

/-- Metal `copysign(INFINITY, s)`: an infinity carrying the sign bit of `s`. -/
def copysignInf (s : SFl) : Fl :=
  match s with
  | SFl.zero b => if b then Fl.negInf else Fl.posInf
  | SFl.fin x => if x < 0 then Fl.negInf else Fl.posInf

/-- Metal `trunc`: round toward zero. -/
def ctrunc (x : ℝ) : ℝ := if 0 ≤ x then (⌊x⌋ : ℝ) else (⌈x⌉ : ℝ)

/-- Metal `fract`: `x - floor(x)`. -/
def fract (x : ℝ) : ℝ := x - (⌊x⌋ : ℝ)

/-- Source constant `EULER_MASCHERONI`. -/
def EULER_MASCHERONI : ℝ := 0.577215664901532860606512090

/-- Source constant `HALF_LOG_TWO_PI`. -/
def HALF_LOG_TWO_PI : ℝ := 0.91893853320467274178032973640562

/-- Source constant `LOG_PI`. -/
def LOG_PI : ℝ := 1.14472988584940017414342735135305

/-- Source constant `PI`. -/
def PI : ℝ := 3.14159265358979323846264338327

/-- Source constant `PI_SQUARED`. -/
def PI_SQUARED : ℝ := 9.86960440108935861883449099987615

/-- Source constant `MACHEP`. -/
def MACHEP : ℝ := 1.11022302462515654042e-16

/-- Source constant `PSI_10`. -/
def PSI_10 : ℝ := 2.25175258906672110764

/-- Source array `DIGAMMA_COEF`. -/
def DIGAMMA_COEF : List ℝ :=
  [8.33333333333333333333e-2,
   -2.10927960927960927961e-2,
   7.57575757575757575758e-3,
   -4.16666666666666666667e-3,
   3.96825396825396825397e-3,
   -8.33333333333333333333e-3,
   8.33333333333333333333e-2]

/-- Source array `ZETA_EXPANSION`. -/
def ZETA_EXPANSION : List ℝ :=
  [12.0,
   -720.0,
   30240.0,
   -1209600.0,
   47900160.0,
   -1.8924375803183791606e9,
   7.47242496e10,
   -2.950130727918164224e12,
   1.1646782814350067249e14,
   -4.5979787224074726105e15,
   1.8152105401943546773e17,
   -7.1661652561756670113e18]

/-- Source array `GAMMA_NUMERATOR_COEF`. -/
def GAMMA_NUMERATOR_COEF : List ℝ :=
  [-1.71618513886549492533811,
   24.7656508055759199108314,
   -379.804256470945635097577,
   629.331155312818442661052,
   866.966202790413211295064,
   -31451.2729688483675254357,
   -36144.4134186911729807069,
   66456.1438202405440627855]

/-- Source array `GAMMA_DENOMINATOR_COEF`. -/
def GAMMA_DENOMINATOR_COEF : List ℝ :=
  [-30.8402300119738975254353,
   315.350626979604161529144,
   -1015.15636749021914166146,
   -3107.77167157231109440444,
   22538.1184209801510330112,
   4755.84627752788110767815,
   -134659.959864969306392456,
   -115132.259675553483497211]

/-- Source array `LGAMMA_EXPANSION_COEF`. -/
def LGAMMA_EXPANSION_COEF : List ℝ :=
  [1.0 / 12.0,
   -1.0 / 360.0,
   1.0 / 1260.0,
   -1.0 / 1680.0,
   1.0 / 1188.0,
   -691.0 / 360360.0,
   1.0 / 156.0,
   -3617.0 / 122400.0]

/-- The `num` accumulation loop of `Gamma` over `(1,2)`:
    `num = (num + GAMMA_NUMERATOR_COEF[i]) * z` for `i = 0..7`, from `num = 0`. -/
def gnum (z : ℝ) : ℝ :=
  GAMMA_NUMERATOR_COEF.foldl (fun num c => (num + c) * z) 0

/-- The `den` accumulation loop of `Gamma` over `(1,2)`:
    `den = den * z + GAMMA_DENOMINATOR_COEF[i]` for `i = 0..7`, from `den = 1`. -/
def gden (z : ℝ) : ℝ :=
  GAMMA_DENOMINATOR_COEF.foldl (fun den c => den * z + c) 1

/-- The correction loop `for (i = 0; i < n; i++) result *= y++`:
    `risingProd y n = y * (y+1) * ... * (y+n-1)`. -/
def risingProd (y : ℝ) : ℕ → ℝ
  | 0 => 1
  | n + 1 => y * risingProd (y + 1) n

/-- First branch of `Gamma` (`x < 0.001`): truncated series for `1/Gamma`. -/
def gammaSmall (x : ℝ) : ℝ := 1.0 / (x * (1.0 + EULER_MASCHERONI * x))

/-- Middle branch of `Gamma` (`0.001 <= x < 12`): reduce to `(1,2)`,
    evaluate the rational approximation, undo the reduction. -/
def gammaMid (x : ℝ) : ℝ :=
  let n : ℤ := if x < 1 then 0 else ⌊x⌋ - 1
  let y : ℝ := if x < 1 then x + 1 else x - n
  let z : ℝ := y - 1
  let result : ℝ := gnum z / gden z + 1
  if x < 1 then result / (y - 1) else result * risingProd y n.toNat

/-- `Gamma` restricted to its `x < 12` branches (what `LogGamma` reaches
    through its call `Gamma(x)` with `x < 12`). -/
def GammaSmallMid (x : ℝ) : ℝ :=
  if x < 0.001 then gammaSmall x else gammaMid x

/-- The `sum` loop of `LogGamma`'s asymptotic series:
    `sum = LGAMMA_EXPANSION_COEF[7]`, then `sum = sum * z + coef[i]` for `i = 6..0`. -/
def lgammaSeriesSum (z : ℝ) : ℝ :=
  (LGAMMA_EXPANSION_COEF.take 7).foldr (fun c sum => sum * z + c)
    (LGAMMA_EXPANSION_COEF.getD 7 0)

/-- Source function `LogGamma`.  `x == 0` yields `INFINITY`; a negative
    argument is reduced to `|x|` and the reflection formula applied. -/
def LogGamma (x : ℝ) : Fl :=
  let ax : ℝ := if x < 0 then -x else x
  if ax = 0 then Fl.posInf
  else
    let logGamma : ℝ :=
      if ax < 12 then Real.log |GammaSmallMid ax|
      else
        let z := 1.0 / (ax * ax)
        (ax - 0.5) * Real.log ax - ax + HALF_LOG_TWO_PI + lgammaSeriesSum z / ax
    if x < 0 then Fl.real (LOG_PI - logGamma - Real.log |ax * Real.sin (Real.pi * ax)|)
    else Fl.real logGamma

/-- Source function `Gamma`. -/
def Gamma (x : ℝ) : Fl :=
  if x < 0.001 then Fl.real (gammaSmall x)
  else if x < 12 then Fl.real (gammaMid x)
  else Fl.exp (LogGamma x)

/-- The shift loop of `calc_digamma_positive_domain`:
    `while (x < 10) { result -= 1 / x; x += 1; }`.
    Returns the final `x`, the accumulated `result`, and the number of
    iterations performed. -/
def digammaShift (x result : ℝ) : ℝ × ℝ × ℕ :=
  if h : x < 10 then
    let t := digammaShift (x + 1) (result - 1 / x)
    (t.1, t.2.1, t.2.2 + 1)
  else (x, result, 0)
termination_by Nat.ceil (10 - x)
decreasing_by
  have e : (10:ℝ) - (x + 1) = (10 - x) - 1 := by ring
  rw [e]
  rcases le_or_lt (1:ℝ) (10 - x) with h1 | h1
  · have h0 : (0:ℝ) ≤ 10 - x - 1 := by linarith
    have hlt : ((⌈(10:ℝ) - x - 1⌉₊ : ℝ)) < (10 - x - 1) + 1 := Nat.ceil_lt_add_one h0
    have : ((⌈(10:ℝ) - x - 1⌉₊ : ℝ)) < 10 - x := by linarith
    exact Nat.lt_ceil.mpr this
  · have hz : ⌈(10:ℝ) - x - 1⌉₊ = 0 := by
      apply Nat.ceil_eq_zero.mpr
      linarith
    rw [hz]
    apply Nat.lt_ceil.mpr
    push_cast
    linarith

/-- The `y` accumulation loop of `calc_digamma_positive_domain`:
    `y += pow(z, i) * DIGAMMA_COEF[i]` for `i = 0..6`. -/
def digammaSeries (z : ℝ) : ℝ :=
  (List.range 7).foldl (fun y i => y + z ^ i * DIGAMMA_COEF.getD i 0) 0

/-- Source function `calc_digamma_positive_domain`. -/
def calc_digamma_positive_domain (x : ℝ) : ℝ :=
  let t := digammaShift x 0
  let x1 := t.1
  let result := t.2.1
  if x1 = 10 then result + PSI_10
  else
    let z := 1.0 / (x1 * x1)
    let y : ℝ := if x1 < 1.0e17 then digammaSeries z * z else 0
    result + Real.log x1 - (0.5 / x1) - y

/-- The `digamma` kernel: full-domain dispatch. -/
def digamma (s : SFl) : Fl :=
  let x := s.toReal
  if x < 0 then
    if x = ctrunc x then Fl.nan
    else
      let r := fract x
      Fl.real (calc_digamma_positive_domain (1 - x) - PI / Real.tan (PI * r))
  else if x = 0 then copysignInf (SFl.neg s)
  else Fl.real (calc_digamma_positive_domain x)

/-- The Euler-Maclaurin tail loop of `calc_zeta` (`for (int i = 0; i < 12; i++)`),
    iterating over the remaining `ZETA_EXPANSION` entries with state
    `(a, s, b, k)`. -/
def zetaTailLoop (x w : ℝ) : List ℝ → ℝ → ℝ → ℝ → ℝ → ℝ
  | [], _, s, _, _ => s
  | c :: rest, a, s, b, k =>
    let a1 := a * (x + k)
    let b1 := b / w
    let t := a1 * b1 / c
    let s1 := s + t
    if |t / s1| < MACHEP then s1
    else zetaTailLoop x w rest (a1 * (x + (k + 1))) s1 (b1 / w) (k + 2)

/-- The Euler-Maclaurin correction of `calc_zeta` after the direct
    summation loop has exited with state `(a, b, s)`. -/
def zetaTail (x a b s : ℝ) : ℝ :=
  let w := a
  let s1 := s + b * w / (x - 1.0)
  let s2 := s1 - 0.5 * b
  zetaTailLoop x w ZETA_EXPANSION 1 s2 b 0

/-- The direct-summation loop of `calc_zeta`:
    `while ((i < 9) || (a <= 9.0))` with `i += 1; a += 1; b = pow(a, -x);
    s += b;` and an early return when `|b|` is negligible relative to `s`. -/
def zetaLoop (x s a : ℝ) (i : ℕ) (b : ℝ) : ℝ :=
  if h : i < 9 ∨ a ≤ 9.0 then
    let a1 := a + 1
    let b1 := a1 ^ (-x)
    let s1 := s + b1
    if -MACHEP * s1 < b1 ∧ b1 < MACHEP * s1 then s1
    else zetaLoop x s1 a1 (i + 1) b1
  else zetaTail x a b s
termination_by (9 - i) + ⌊(10:ℝ) - a⌋₊
decreasing_by
  have e : (10:ℝ) - (a + 1) = (10 - a) - 1 := by ring
  rw [e]
  have hmono : ⌊(10:ℝ) - a - 1⌋₊ ≤ ⌊(10:ℝ) - a⌋₊ := Nat.floor_mono (by linarith)
  rcases h with h | h
  · omega
  · have h2 : (0:ℝ) ≤ 10 - a - 1 := by linarith
    have h3 : ⌊(10:ℝ) - a - 1⌋₊ + 1 ≤ ⌊(10:ℝ) - a⌋₊ := by
      apply Nat.le_floor
      push_cast
      have := Nat.floor_le h2
      linarith
    omega

/-- Fuel-indexed variant of `zetaLoop`, returning `none` when the fuel
    runs out before the loop exits. -/
def zetaLoopFuel (fuel : ℕ) (x s a : ℝ) (i : ℕ) (b : ℝ) : Option ℝ :=
  if i < 9 ∨ a ≤ 9.0 then
    match fuel with
    | 0 => none
    | f + 1 =>
      let a1 := a + 1
      let b1 := a1 ^ (-x)
      let s1 := s + b1
      if -MACHEP * s1 < b1 ∧ b1 < MACHEP * s1 then some s1
      else zetaLoopFuel f x s1 a1 (i + 1) b1
  else some (zetaTail x a b s)

/-- Source function `calc_zeta` (Hurwitz zeta).  The guard cases encode
    domain errors as special float values; otherwise the direct summation
    runs from `s = pow(q, -x)`, `a = q`, `i = 0`, `b = 0`. -/
def calc_zeta (x q : ℝ) : Fl :=
  if x = 1 then Fl.posInf
  else if x < 1 then Fl.nan
  else if q ≤ 0 ∧ q = ctrunc q then Fl.posInf
  else if q ≤ 0 ∧ x ≠ ctrunc x then Fl.nan
  else Fl.real (zetaLoop x (q ^ (-x)) q 0 0)

/-- The shift loop of `calc_trigamma`:
    `for (int i = 0; i < 6; ++i) { result += 1 / (x * x); x += 1; }`. -/
def trigammaShift : ℕ → ℝ → ℝ → ℝ × ℝ
  | 0, x, result => (x, result)
  | n + 1, x, result => trigammaShift n (x + 1) (result + 1 / (x * x))

/-- The tail correction of `calc_trigamma`, exactly as written in the
    source: the series coefficients `(1 / 6)`, `(1 / 3)` and `(1 / 42)`
    are C integer divisions. -/
def trigammaTail (x : ℝ) : ℝ :=
  let ixx := 1 / (x * x)
  (1 + 1 / (2 * x) +
      ixx * ((((1:ℤ) / 6 : ℤ) : ℝ) - ixx * ((((1:ℤ) / 3 : ℤ) : ℝ) - ixx * (((1:ℤ) / 42 : ℤ) : ℝ)))) / x

/-- Source function `calc_trigamma` (polygamma order 1). -/
def calc_trigamma (x : ℝ) : ℝ :=
  let sign : ℝ := if x < 0.5 then -1 else 1
  let result0 : ℝ :=
    if x < 0.5 then 0 - PI_SQUARED / (Real.sin (PI * x) * Real.sin (PI * x)) else 0
  let x0 : ℝ := if x < 0.5 then 1 - x else x
  let t := trigammaShift 6 x0 result0
  sign * (t.2 + trigammaTail t.1)

/-- The `polygamma` kernel (only dispatched for `order >= 2`):
    `sgn * Gamma(n + 1) * calc_zeta(n + 1, x)` with
    `sgn = ((order % 2) ? 1 : -1)`. -/
def polygamma (order : ℤ) (s : SFl) : Fl :=
  let x := s.toReal
  let n : ℝ := (order : ℝ)
  let sgn : ℝ := if order % 2 ≠ 0 then 1 else -1
  Fl.mul (Fl.mul (Fl.real sgn) (Gamma (n + 1))) (calc_zeta (n + 1) x)

/-- Modelled from the spec (section 4.7), for comparison with the kernel:
    `sign = (+1 if order even else −1) · Γ(order+1) · ζ(order+1, x)`. -/
def polygammaSpecFormula (order : ℤ) (s : SFl) : Fl :=
  Fl.mul (Fl.mul (Fl.real (if order % 2 = 0 then 1 else -1)) (Gamma ((order : ℝ) + 1)))
    (calc_zeta ((order : ℝ) + 1) s.toReal)

/-- The amended formula: the sign factor is `+1` exactly when the order is odd. -/
def polygammaOddSignFormula (order : ℤ) (s : SFl) : Fl :=
  Fl.mul (Fl.mul (Fl.real (if order % 2 = 1 then 1 else -1)) (Gamma ((order : ℝ) + 1)))
    (calc_zeta ((order : ℝ) + 1) s.toReal)

/-- The `trigamma` kernel body. -/
def trigammaKernel (s : SFl) : Fl := Fl.real (calc_trigamma s.toReal)

/-- The `lgamma` kernel body. -/
def lgammaKernel (s : SFl) : Fl := LogGamma s.toReal

/-- Scalar types of the tensor framework relevant to this backend. -/
inductive ScalarType where
  | Float
  | Half
  | Int
  | Long
  | Double
deriving DecidableEq

/-- The slice of a tensor the entry points inspect: its scalar type and
    its elements.  Device dispatch is modelled as an elementwise map. -/
structure MTensor where
  scalarType : ScalarType
  data : List SFl

/-- Host entry point `lgamma_out_mps`: precondition checks, then the
    elementwise kernel.  The returned pair is the call outcome and the
    output buffer after the call (`out0` is its prior content). -/
def lgamma_out_mps (self : MTensor) (out0 : List Fl) : Except String Unit × List Fl :=
  if self.scalarType = ScalarType.Double then
    (Except.error "MPS does not support lgamma_out op with scalar type: Double", out0)
  else if self.data.length = 0 then (Except.ok (), out0)
  else (Except.ok (), self.data.map lgammaKernel)

/-- Host entry point `digamma_out_mps`. -/
def digamma_out_mps (self : MTensor) (out0 : List Fl) : Except String Unit × List Fl :=
  if self.scalarType = ScalarType.Double then
    (Except.error "MPS does not support digamma_out op with scalar type: Double", out0)
  else if self.data.length = 0 then (Except.ok (), out0)
  else (Except.ok (), self.data.map digamma)

/-- Host entry point `polygamma_out_mps`: rejects `Double` and negative
    orders, then dispatches order 0 to `digamma`, order 1 to `trigamma`,
    and any larger order to the general `polygamma` kernel. -/
def polygamma_out_mps (order : ℤ) (self : MTensor) (out0 : List Fl) :
    Except String Unit × List Fl :=
  if self.scalarType = ScalarType.Double then
    (Except.error "MPS does not support polygamma_out op with scalar type: Double", out0)
  else if order < 0 then
    (Except.error "Polygamma is implemented only for nonnegative real numbers", out0)
  else if self.data.length = 0 then (Except.ok (), out0)
  else if order = 0 then (Except.ok (), self.data.map digamma)
  else if order = 1 then (Except.ok (), self.data.map trigammaKernel)
  else (Except.ok (), self.data.map (polygamma order))

/-- The process-wide caches of `Gamma.mm`: the library map of
    `compileGammaOpsLibrary` and the pipeline map of `getCPLState`, both
    keyed by concatenated strings.  Device objects are modelled by ids
    drawn from `nextId`; `compileCount` counts device compilations. -/
structure CacheState where
  libMap : List (String × ℕ)
  cplMap : List (String × ℕ)
  compileCount : ℕ
  nextId : ℕ

/-- Source function `compileGammaOpsLibrary`: return the cached library
    for `t1 + t2`, or compile (modelled as allocating a fresh id and
    incrementing `compileCount`) and cache it. -/
def compileGammaOpsLibrary (t1 t2 : String) (s : CacheState) : ℕ × CacheState :=
  let key := t1 ++ t2
  match s.libMap.lookup key with
  | some lib => (lib, s)
  | none =>
    (s.nextId,
      { libMap := (key, s.nextId) :: s.libMap
        cplMap := s.cplMap
        compileCount := s.compileCount + 1
        nextId := s.nextId + 1 })

/-- Source function `getCPLState`: return the cached pipeline state for
    `t1 + t2 + fname`, or resolve the function from the (possibly newly
    compiled) library and cache the new pipeline state. -/
def getCPLState (t1 t2 fname : String) (s : CacheState) : ℕ × CacheState :=
  let key := t1 ++ t2 ++ fname
  match s.cplMap.lookup key with
  | some p => (p, s)
  | none =>
    let r := compileGammaOpsLibrary t1 t2 s
    let s1 := r.2
    (s1.nextId,
      { libMap := s1.libMap
        cplMap := (key, s1.nextId) :: s1.cplMap
        compileCount := s1.compileCount
        nextId := s1.nextId + 1 })

/-!
Helper lemmas, followed by one theorem per claim (with witnesses and
counterexamples where required).
-/

/-- Truncation toward zero fixes integer values. -/
lemma ctrunc_intCast (n : ℤ) : ctrunc (n : ℝ) = n := by
  unfold ctrunc
  rcases le_or_lt (0:ℝ) (n:ℝ) with h | h
  · rw [if_pos h, Int.floor_intCast]
  · rw [if_neg (not_le.mpr h), Int.ceil_intCast]

/-- The rational approximation path of `Gamma` at the integer `3`. -/
lemma Gamma_three : Gamma 3 = Fl.real 2 := by
  unfold Gamma
  rw [if_neg (by norm_num), if_pos (by norm_num)]
  unfold gammaMid
  rw [if_neg (by norm_num)]
  norm_num [gnum, gden, GAMMA_NUMERATOR_COEF, GAMMA_DENOMINATOR_COEF, List.foldl, risingProd]

/-- `calc_zeta` at `x = 3`, `q = 0` hits the `q <= 0`, `q` integral guard. -/
lemma calc_zeta_three_zero : calc_zeta 3 0 = Fl.posInf := by
  unfold calc_zeta
  rw [if_neg (by norm_num), if_neg (by norm_num), if_pos]
  constructor
  · norm_num
  · have h0 : ((0 : ℝ)) = ((0 : ℤ) : ℝ) := by norm_num
    rw [h0, ctrunc_intCast]

/-- The shift loop of `calc_digamma_positive_domain` performs at most `n`
    iterations once `10 - x ≤ n`. -/
lemma digammaShift_steps_le : ∀ (n : ℕ) (x r : ℝ), 10 - x ≤ (n : ℝ) →
    (digammaShift x r).2.2 ≤ n := by
  intro n
  induction n with
  | zero =>
    intro x r h
    rw [digammaShift, dif_neg (by push_cast at h; linarith : ¬ x < 10)]
  | succ n ih =>
    intro x r h
    by_cases hx : x < 10
    · rw [digammaShift, dif_pos hx]
      show (digammaShift (x + 1) (r - 1 / x)).2.2 + 1 ≤ n + 1
      have := ih (x + 1) (r - 1 / x) (by push_cast at h ⊢; linarith)
      omega
    · rw [digammaShift, dif_neg hx]
      exact Nat.zero_le _

/-- With fuel at least `(9 - i) + ⌊10 - a⌋₊`, the fuel-indexed summation
    loop of `calc_zeta` finishes and agrees with `zetaLoop`. -/
lemma zetaLoopFuel_eq : ∀ (n : ℕ) (x s a : ℝ) (i : ℕ) (b : ℝ),
    (9 - i) + ⌊(10:ℝ) - a⌋₊ ≤ n →
    zetaLoopFuel n x s a i b = some (zetaLoop x s a i b) := by
  intro n
  induction n with
  | zero =>
    intro x s a i b h
    have hcond : ¬ (i < 9 ∨ a ≤ 9.0) := by
      rintro (h9 | h9)
      · omega
      · have h1 : (1:ℝ) ≤ 10 - a := by linarith
        have : 1 ≤ ⌊(10:ℝ) - a⌋₊ := Nat.le_floor (by push_cast; linarith)
        omega
    rw [zetaLoopFuel, if_neg hcond, zetaLoop, dif_neg hcond]
  | succ n ih =>
    intro x s a i b h
    by_cases hcond : i < 9 ∨ a ≤ 9.0
    · rw [zetaLoopFuel, if_pos hcond, zetaLoop, dif_pos hcond]
      show (if -MACHEP * (s + (a+1) ^ (-x)) < (a+1) ^ (-x) ∧
              (a+1) ^ (-x) < MACHEP * (s + (a+1) ^ (-x))
            then some (s + (a+1) ^ (-x))
            else zetaLoopFuel n x (s + (a+1) ^ (-x)) (a+1) (i+1) ((a+1) ^ (-x))) =
           some (if -MACHEP * (s + (a+1) ^ (-x)) < (a+1) ^ (-x) ∧
              (a+1) ^ (-x) < MACHEP * (s + (a+1) ^ (-x))
            then (s + (a+1) ^ (-x))
            else zetaLoop x (s + (a+1) ^ (-x)) (a+1) (i+1) ((a+1) ^ (-x)))
      by_cases hret : -MACHEP * (s + (a+1) ^ (-x)) < (a+1) ^ (-x) ∧
          (a+1) ^ (-x) < MACHEP * (s + (a+1) ^ (-x))
      · rw [if_pos hret, if_pos hret]
      · rw [if_neg hret, if_neg hret]
        apply ih
        have hmono : ⌊(10:ℝ) - (a + 1)⌋₊ ≤ ⌊(10:ℝ) - a⌋₊ := Nat.floor_mono (by linarith)
        rcases hcond with hc | hc
        · omega
        · have h2 : (0:ℝ) ≤ 10 - a - 1 := by linarith
          have h3 : ⌊(10:ℝ) - a - 1⌋₊ + 1 ≤ ⌊(10:ℝ) - a⌋₊ := by
            apply Nat.le_floor
            push_cast
            have := Nat.floor_le h2
            linarith
          have e : (10:ℝ) - (a + 1) = 10 - a - 1 := by ring
          rw [e]
          omega
    · rw [zetaLoopFuel, if_neg hcond, zetaLoop, dif_neg hcond]

/-- A pipeline-cache hit returns the cached id and leaves the state alone. -/
lemma getCPLState_hit (t1 t2 fname : String) (s : CacheState) (p : ℕ)
    (h : s.cplMap.lookup (t1 ++ t2 ++ fname) = some p) :
    getCPLState t1 t2 fname s = (p, s) := by
  unfold getCPLState
  simp only [h]

/-- A pipeline-cache miss creates one pipeline and records it. -/
lemma getCPLState_miss (t1 t2 fname : String) (s : CacheState)
    (h : s.cplMap.lookup (t1 ++ t2 ++ fname) = none) :
    getCPLState t1 t2 fname s =
      ((compileGammaOpsLibrary t1 t2 s).2.nextId,
        { libMap := (compileGammaOpsLibrary t1 t2 s).2.libMap
          cplMap := (t1 ++ t2 ++ fname, (compileGammaOpsLibrary t1 t2 s).2.nextId) ::
            (compileGammaOpsLibrary t1 t2 s).2.cplMap
          compileCount := (compileGammaOpsLibrary t1 t2 s).2.compileCount
          nextId := (compileGammaOpsLibrary t1 t2 s).2.nextId + 1 }) := by
  unfold getCPLState
  simp only [h]

/-- A library-cache hit performs no compilation. -/
lemma compileGammaOpsLibrary_hit (t1 t2 : String) (s : CacheState) (lib : ℕ)
    (h : s.libMap.lookup (t1 ++ t2) = some lib) :
    compileGammaOpsLibrary t1 t2 s = (lib, s) := by
  unfold compileGammaOpsLibrary
  simp only [h]

/-- The source's Euler-Mascheroni constant is positive. -/
lemma EM_pos : (0:ℝ) < EULER_MASCHERONI := by norm_num [EULER_MASCHERONI]

/-- On `(0, 0.001)` the denominator polynomial of the `(1,2)` rational
    approximation stays below `-114000`. -/
lemma gden_neg {x : ℝ} (h1 : 0 < x) (h2 : x < 0.001) : gden x < -114000 := by
  have p1 : x ≤ 1/1000 := by norm_num at h2; linarith
  have n2 : (0:ℝ) ≤ x^2 := pow_nonneg h1.le 2
  have n3 : (0:ℝ) ≤ x^3 := pow_nonneg h1.le 3
  have n4 : (0:ℝ) ≤ x^4 := pow_nonneg h1.le 4
  have n5 : (0:ℝ) ≤ x^5 := pow_nonneg h1.le 5
  have n6 : (0:ℝ) ≤ x^6 := pow_nonneg h1.le 6
  have n7 : (0:ℝ) ≤ x^7 := pow_nonneg h1.le 7
  have n8 : (0:ℝ) ≤ x^8 := pow_nonneg h1.le 8
  have p2 : x^2 ≤ (1/1000)^2 := pow_le_pow_left₀ h1.le p1 2
  have p3 : x^3 ≤ (1/1000)^3 := pow_le_pow_left₀ h1.le p1 3
  have p4 : x^4 ≤ (1/1000)^4 := pow_le_pow_left₀ h1.le p1 4
  have p5 : x^5 ≤ (1/1000)^5 := pow_le_pow_left₀ h1.le p1 5
  have p6 : x^6 ≤ (1/1000)^6 := pow_le_pow_left₀ h1.le p1 6
  have p7 : x^7 ≤ (1/1000)^7 := pow_le_pow_left₀ h1.le p1 7
  have p8 : x^8 ≤ (1/1000)^8 := pow_le_pow_left₀ h1.le p1 8
  simp only [gden, GAMMA_DENOMINATOR_COEF, List.foldl_cons, List.foldl_nil]
  nlinarith [p1, p2, p3, p4, p5, p6, p7, p8, n2, n3, n4, n5, n6, n7, n8, h1.le]

/-- On `(0, 0.001)` the mismatch polynomial between the small-`x` series
    and the rational approximation is bounded by `1e-5` of `|gden|`. -/
lemma gammaP_abs_le {x : ℝ} (h1 : 0 < x) (h2 : x < 0.001) :
    |(1 + EULER_MASCHERONI * x) * gnum x + EULER_MASCHERONI * x * gden x| ≤
      1e-5 * (-gden x) := by
  have p1 : x ≤ 1/1000 := by norm_num at h2; linarith
  have n2 : (0:ℝ) ≤ x^2 := pow_nonneg h1.le 2
  have n3 : (0:ℝ) ≤ x^3 := pow_nonneg h1.le 3
  have n4 : (0:ℝ) ≤ x^4 := pow_nonneg h1.le 4
  have n5 : (0:ℝ) ≤ x^5 := pow_nonneg h1.le 5
  have n6 : (0:ℝ) ≤ x^6 := pow_nonneg h1.le 6
  have n7 : (0:ℝ) ≤ x^7 := pow_nonneg h1.le 7
  have n8 : (0:ℝ) ≤ x^8 := pow_nonneg h1.le 8
  have n9 : (0:ℝ) ≤ x^9 := pow_nonneg h1.le 9
  have p2 : x^2 ≤ (1/1000)^2 := pow_le_pow_left₀ h1.le p1 2
  have p3 : x^3 ≤ (1/1000)^3 := pow_le_pow_left₀ h1.le p1 3
  have p4 : x^4 ≤ (1/1000)^4 := pow_le_pow_left₀ h1.le p1 4
  have p5 : x^5 ≤ (1/1000)^5 := pow_le_pow_left₀ h1.le p1 5
  have p6 : x^6 ≤ (1/1000)^6 := pow_le_pow_left₀ h1.le p1 6
  have p7 : x^7 ≤ (1/1000)^7 := pow_le_pow_left₀ h1.le p1 7
  have p8 : x^8 ≤ (1/1000)^8 := pow_le_pow_left₀ h1.le p1 8
  have p9 : x^9 ≤ (1/1000)^9 := pow_le_pow_left₀ h1.le p1 9
  rw [abs_le]
  constructor <;>
  · simp only [gnum, gden, EULER_MASCHERONI, GAMMA_NUMERATOR_COEF, GAMMA_DENOMINATOR_COEF,
      List.foldl_cons, List.foldl_nil]
    nlinarith [p1, p2, p3, p4, p5, p6, p7, p8, p9, n2, n3, n4, n5, n6, n7, n8, n9, h1.le]

/-- Relative error of the recurrence on the `x < 0.001` branch of `Gamma`. -/
lemma gamma_small_step {x : ℝ} (h1 : 0 < x) (h2 : x < 0.001) :
    |gammaSmall x - (gnum x / gden x + 1) / x| ≤ 1e-5 * |gammaSmall x| := by
  have hu : 0 < 1 + EULER_MASCHERONI * x := by nlinarith [EM_pos]
  have hxne : x ≠ 0 := ne_of_gt h1
  have hune : (1 + EULER_MASCHERONI * x) ≠ 0 := ne_of_gt hu
  have hdneg : gden x < -114000 := gden_neg h1 h2
  have hdlt : gden x < 0 := by linarith
  have hdne : gden x ≠ 0 := ne_of_lt hdlt
  have hgs_eq : gammaSmall x = 1 / (x * (1 + EULER_MASCHERONI * x)) := by
    unfold gammaSmall
    norm_num
  have key : gammaSmall x - (gnum x / gden x + 1) / x =
      -(((1 + EULER_MASCHERONI * x) * gnum x + EULER_MASCHERONI * x * gden x) /
        (x * (1 + EULER_MASCHERONI * x) * gden x)) := by
    rw [hgs_eq]
    field_simp
    ring
  have hgpos : 0 < gammaSmall x := by
    rw [hgs_eq]
    exact div_pos one_pos (mul_pos h1 hu)
  have hprod : x * (1 + EULER_MASCHERONI * x) * gden x < 0 :=
    mul_neg_of_pos_of_neg (mul_pos h1 hu) hdlt
  rw [key, abs_neg, abs_div, abs_of_neg hprod, abs_of_pos hgpos]
  rw [div_le_iff₀ (by linarith : (0:ℝ) < -(x * (1 + EULER_MASCHERONI * x) * gden x))]
  have e2 : 1e-5 * gammaSmall x * -(x * (1 + EULER_MASCHERONI * x) * gden x) =
      1e-5 * (-gden x) := by
    rw [hgs_eq]
    field_simp
    ring
  rw [e2]
  exact gammaP_abs_le h1 h2

/-- For `x < 1`, `gammaMid` reduces through `y = x + 1` and divides back by `x`. -/
lemma gammaMid_lt_one {x : ℝ} (h1 : x < 1) : gammaMid x = (gnum x / gden x + 1) / x := by
  simp only [gammaMid, if_pos h1]
  norm_num

/-- For `1 ≤ y < 2`, `gammaMid` is the bare rational approximation. -/
lemma gammaMid_one_two {y : ℝ} (h1 : 1 ≤ y) (h2 : y < 2) :
    gammaMid y = gnum (y - 1) / gden (y - 1) + 1 := by
  have hf : ⌊y⌋ = 1 := by
    rw [Int.floor_eq_iff]
    constructor
    · exact_mod_cast h1
    · push_cast
      linarith
  simp only [gammaMid, if_neg (not_lt.mpr h1)]
  rw [hf]
  norm_num [risingProd]

/-- Branch selection of `Gamma` for small arguments. -/
lemma Gamma_of_small {x : ℝ} (h1 : x < 0.001) : Gamma x = Fl.real (gammaSmall x) := by
  unfold Gamma
  rw [if_pos h1]

/-- Branch selection of `Gamma` for mid-range arguments. -/
lemma Gamma_of_mid {x : ℝ} (h1 : ¬ x < 0.001) (h2 : x < 12) :
    Gamma x = Fl.real (gammaMid x) := by
  unfold Gamma
  rw [if_neg h1, if_pos h2]

/-- Claim C1, counterexample: at `order = 2`, input `x = 0`, the kernel
    yields `-∞` while the spec's even-sign formula yields `+∞`, so the
    kernel does not compute `(+1 if order even else -1) · Γ(order+1) ·
    ζ(order+1, x)`. -/
theorem polygamma_sign_counterexample :
    polygamma 2 (SFl.fin 0) ≠ polygammaSpecFormula 2 (SFl.fin 0) := by
  have h1 : polygamma 2 (SFl.fin 0) = Fl.negInf := by
    show Fl.mul (Fl.mul (Fl.real (if (2:ℤ) % 2 ≠ 0 then 1 else -1)) (Gamma (((2:ℤ):ℝ) + 1)))
        (calc_zeta (((2:ℤ):ℝ) + 1) (SFl.toReal (SFl.fin 0))) = Fl.negInf
    have e1 : (((2:ℤ):ℝ) + 1) = 3 := by norm_num
    have e2 : SFl.toReal (SFl.fin 0) = 0 := rfl
    rw [e1, e2, Gamma_three, calc_zeta_three_zero]
    norm_num [Fl.mul]
  have h2 : polygammaSpecFormula 2 (SFl.fin 0) = Fl.posInf := by
    show Fl.mul (Fl.mul (Fl.real (if (2:ℤ) % 2 = 0 then 1 else -1)) (Gamma (((2:ℤ):ℝ) + 1)))
        (calc_zeta (((2:ℤ):ℝ) + 1) (SFl.toReal (SFl.fin 0))) = Fl.posInf
    have e1 : (((2:ℤ):ℝ) + 1) = 3 := by norm_num
    have e2 : SFl.toReal (SFl.fin 0) = 0 := rfl
    rw [e1, e2, Gamma_three, calc_zeta_three_zero]
    norm_num [Fl.mul]
  rw [h1, h2]
  simp

/-- Claim C1 (amended): for every input element `x` and every
    `order ≥ 2`, the `polygamma` kernel computes
    `(+1 if order odd else -1) · Gamma(order+1) · calc_zeta(order+1, x)`:
    the sign factor is `+1` exactly when the order is odd. -/
theorem polygamma_sign_amended (order : ℤ) (s : SFl) (h : 2 ≤ order) :
    polygamma order s = polygammaOddSignFormula order s := by
  unfold polygamma polygammaOddSignFormula
  have hsgn : (if order % 2 ≠ 0 then (1:ℝ) else -1) = (if order % 2 = 1 then 1 else -1) :=
    if_congr (by omega) rfl rfl
  rw [hsgn]

/-- Witness for the amended claim C1 at `order = 3`, `x = 0`. -/
theorem polygamma_sign_amended_witness :
    polygamma 3 (SFl.fin 0) = polygammaOddSignFormula 3 (SFl.fin 0) :=
  polygamma_sign_amended 3 (SFl.fin 0) (by norm_num)

/-- Claim C2: for every finite `x` with `0 < x < 1`, `Gamma(x)` equals
    `Gamma(x+1)/x` within relative tolerance `1e-5` (both values are
    finite floats on this domain). -/
theorem Gamma_recurrence_rel_tol (x : ℝ) (h1 : 0 < x) (h2 : x < 1) :
    ∃ g g1, Gamma x = Fl.real g ∧ Gamma (x + 1) = Fl.real g1 ∧
      |g - g1 / x| ≤ 1e-5 * |g| := by
  have hx1a : ¬ (x + 1) < 0.001 := by norm_num; linarith
  have hx1b : x + 1 < 12 := by linarith
  have hgm1 : gammaMid (x + 1) = gnum x / gden x + 1 := by
    rw [gammaMid_one_two (by linarith) (by linarith)]
    norm_num
  by_cases hc : x < 0.001
  · refine ⟨gammaSmall x, gnum x / gden x + 1, Gamma_of_small hc, ?_, ?_⟩
    · rw [Gamma_of_mid hx1a hx1b, hgm1]
    · exact gamma_small_step h1 hc
  · refine ⟨gammaMid x, gnum x / gden x + 1, Gamma_of_mid hc (by linarith), ?_, ?_⟩
    · rw [Gamma_of_mid hx1a hx1b, hgm1]
    · rw [gammaMid_lt_one h2, sub_self, abs_zero]
      positivity

/-- Witness for claim C2 at `x = 1/2`. -/
theorem Gamma_recurrence_rel_tol_witness :
    ∃ g g1, Gamma (1/2 : ℝ) = Fl.real g ∧ Gamma ((1/2 : ℝ) + 1) = Fl.real g1 ∧
      |g - g1 / (1/2 : ℝ)| ≤ 1e-5 * |g| :=
  Gamma_recurrence_rel_tol (1/2) (by norm_num) (by norm_num)

/-- Claim C3 (amended): for a zero input of either sign the `digamma`
    kernel returns `copysign(INFINITY, -x)`; hence `digamma(+0) = -∞` and
    `digamma(-0) = +∞`, and `copysign(inf, -0)` is `-∞` (not `+∞` as the
    spec's test formula states). -/
theorem digamma_zero_copysign (s : SFl) (h : s.toReal = 0) :
    digamma s = copysignInf (SFl.neg s) ∧
    digamma (SFl.zero false) = Fl.negInf ∧
    digamma (SFl.zero true) = Fl.posInf ∧
    copysignInf (SFl.zero true) = Fl.negInf := by
  refine ⟨?_, ?_, ?_, ?_⟩
  · unfold digamma
    rw [h]
    norm_num
  · simp [digamma, SFl.toReal, SFl.neg, copysignInf]
  · simp [digamma, SFl.toReal, SFl.neg, copysignInf]
  · simp [copysignInf]

/-- Claim C3, counterexample to the spec's expectation
    `copysign(inf, -0) = +inf`: with `-0` the IEEE negative zero, the
    sign bit is negative, so the result is `-∞`. -/
theorem copysign_inf_neg_zero_counterexample :
    copysignInf (SFl.zero true) ≠ Fl.posInf := by
  simp [copysignInf]

/-- Witness for the amended claim C3 at input `+0`. -/
theorem digamma_zero_copysign_witness :
    digamma (SFl.zero false) = copysignInf (SFl.neg (SFl.zero false)) ∧
    digamma (SFl.zero false) = Fl.negInf ∧
    digamma (SFl.zero true) = Fl.posInf ∧
    copysignInf (SFl.zero true) = Fl.negInf :=
  digamma_zero_copysign (SFl.zero false) rfl

/-- Claim C4: for every input `x < 0` equal to its own truncation (a
    negative integer), the `digamma` kernel writes NaN. -/
theorem digamma_negative_integer_nan (x : ℝ) (h1 : x < 0) (h2 : x = ctrunc x) :
    digamma (SFl.fin x) = Fl.nan := by
  unfold digamma
  simp only [SFl.toReal]
  rw [if_pos h1, if_pos h2]

/-- Witness for claim C4 at `x = -1`. -/
theorem digamma_negative_integer_nan_witness :
    digamma (SFl.fin (-1)) = Fl.nan :=
  digamma_negative_integer_nan (-1) (by norm_num)
    (by rw [show ((-1:ℝ)) = (((-1:ℤ)):ℝ) from by norm_num, ctrunc_intCast])

/-- Claim C5: `calc_zeta` encodes domain errors as special float values
    rather than raising: `+∞` at `x = 1`; NaN for `x < 1`; and past those
    guards, for `q ≤ 0` it returns `+∞` when `q` is an integer and NaN
    when (`q` is not an integer and) `x` is not an integer. -/
theorem calc_zeta_domain_encoding (x q : ℝ) :
    (x = 1 → calc_zeta x q = Fl.posInf) ∧
    (x < 1 → calc_zeta x q = Fl.nan) ∧
    (1 < x → q ≤ 0 → q = ctrunc q → calc_zeta x q = Fl.posInf) ∧
    (1 < x → q ≤ 0 → q ≠ ctrunc q → x ≠ ctrunc x → calc_zeta x q = Fl.nan) := by
  refine ⟨?_, ?_, ?_, ?_⟩
  · intro h
    unfold calc_zeta
    rw [if_pos h]
  · intro h
    unfold calc_zeta
    rw [if_neg (ne_of_lt h), if_pos h]
  · intro h1 h2 h3
    unfold calc_zeta
    rw [if_neg (ne_of_gt h1), if_neg (not_lt.mpr (le_of_lt h1)), if_pos ⟨h2, h3⟩]
  · intro h1 h2 h3 h4
    unfold calc_zeta
    rw [if_neg (ne_of_gt h1), if_neg (not_lt.mpr (le_of_lt h1)),
      if_neg (fun hc => h3 hc.2), if_pos ⟨h2, h4⟩]

/-- Witness for claim C5: one concrete input per guard case. -/
theorem calc_zeta_domain_encoding_witness :
    calc_zeta 1 5 = Fl.posInf ∧ calc_zeta (1/2) 5 = Fl.nan ∧
    calc_zeta 2 (-3) = Fl.posInf ∧ calc_zeta (5/2) (-(1/2)) = Fl.nan := by
  refine ⟨(calc_zeta_domain_encoding 1 5).1 rfl,
    (calc_zeta_domain_encoding (1/2) 5).2.1 (by norm_num),
    (calc_zeta_domain_encoding 2 (-3)).2.2.1 (by norm_num) (by norm_num)
      (by rw [show ((-3:ℝ)) = (((-3:ℤ)):ℝ) from by norm_num, ctrunc_intCast]),
    (calc_zeta_domain_encoding (5/2) (-(1/2))).2.2.2 (by norm_num) (by norm_num) ?_ ?_⟩
  · have h : ctrunc (-(1/2) : ℝ) = 0 := by
      unfold ctrunc
      rw [if_neg (by norm_num)]
      norm_num
    rw [h]
    norm_num
  · have h : ctrunc (5/2 : ℝ) = 2 := by
      unfold ctrunc
      rw [if_pos (by norm_num)]
      norm_num
    rw [h]
    norm_num

/-- Claim C6: each operator entry point fails with a descriptive error
    when the input scalar type is `Double`, `polygamma` additionally
    fails when `order < 0`, and in every such case the error is raised
    before any kernel work, so the output buffer is unchanged. -/
theorem entrypoint_precondition_errors (self : MTensor) (out0 : List Fl) (order : ℤ) :
    (self.scalarType = ScalarType.Double →
      lgamma_out_mps self out0 =
        (Except.error "MPS does not support lgamma_out op with scalar type: Double", out0) ∧
      digamma_out_mps self out0 =
        (Except.error "MPS does not support digamma_out op with scalar type: Double", out0) ∧
      polygamma_out_mps order self out0 =
        (Except.error "MPS does not support polygamma_out op with scalar type: Double", out0)) ∧
    (self.scalarType ≠ ScalarType.Double → order < 0 →
      polygamma_out_mps order self out0 =
        (Except.error "Polygamma is implemented only for nonnegative real numbers", out0)) := by
  constructor
  · intro h
    refine ⟨?_, ?_, ?_⟩
    · unfold lgamma_out_mps
      rw [if_pos h]
    · unfold digamma_out_mps
      rw [if_pos h]
    · unfold polygamma_out_mps
      rw [if_pos h]
  · intro h1 h2
    unfold polygamma_out_mps
    rw [if_neg h1, if_pos h2]

/-- Witness for claim C6: a `Double` tensor through `lgamma` and a
    negative order through `polygamma`. -/
theorem entrypoint_precondition_errors_witness :
    lgamma_out_mps ⟨ScalarType.Double, []⟩ [] =
      (Except.error "MPS does not support lgamma_out op with scalar type: Double", []) ∧
    polygamma_out_mps (-1) ⟨ScalarType.Float, []⟩ [] =
      (Except.error "Polygamma is implemented only for nonnegative real numbers", []) :=
  ⟨((entrypoint_precondition_errors ⟨ScalarType.Double, []⟩ [] 0).1 rfl).1,
   (entrypoint_precondition_errors ⟨ScalarType.Float, []⟩ [] (-1)).2 (by simp) (by norm_num)⟩

/-- Claim C7: for every (input type, output type, function name) triple a
    repeated `getCPLState` call returns the pipeline cached by the first
    call and leaves the cache state (hence the compilation count)
    untouched; and once the library for a type pair is cached, a
    `getCPLState` call compiles nothing. -/
theorem getCPLState_cache_idempotent (t1 t2 fname : String) (s : CacheState) :
    ((getCPLState t1 t2 fname (getCPLState t1 t2 fname s).2).1 =
        (getCPLState t1 t2 fname s).1 ∧
      (getCPLState t1 t2 fname (getCPLState t1 t2 fname s).2).2 =
        (getCPLState t1 t2 fname s).2) ∧
    (∀ lib, s.libMap.lookup (t1 ++ t2) = some lib →
      (getCPLState t1 t2 fname s).2.compileCount = s.compileCount) := by
  constructor
  · cases h : (s.cplMap.lookup (t1 ++ t2 ++ fname)) with
    | some p =>
      rw [getCPLState_hit t1 t2 fname s p h]
      rw [getCPLState_hit t1 t2 fname s p h]
      exact ⟨rfl, rfl⟩
    | none =>
      rw [getCPLState_miss t1 t2 fname s h]
      have h2 : (List.lookup (t1 ++ t2 ++ fname)
          ((t1 ++ t2 ++ fname, (compileGammaOpsLibrary t1 t2 s).2.nextId) ::
            (compileGammaOpsLibrary t1 t2 s).2.cplMap)) =
          some (compileGammaOpsLibrary t1 t2 s).2.nextId := by
        simp [List.lookup]
      rw [getCPLState_hit t1 t2 fname _ _ h2]
      exact ⟨rfl, rfl⟩
  · intro lib hlib
    cases h : (s.cplMap.lookup (t1 ++ t2 ++ fname)) with
    | some p => rw [getCPLState_hit t1 t2 fname s p h]
    | none =>
      rw [getCPLState_miss t1 t2 fname s h]
      rw [compileGammaOpsLibrary_hit t1 t2 s lib hlib]

/-- Witness for claim C7 on a state that already caches the library for
    the `float`/`float` pair (one compilation so far). -/
theorem getCPLState_cache_idempotent_witness :
    ((getCPLState "float" "float" "digamma"
        (getCPLState "float" "float" "digamma" ⟨[("floatfloat", 0)], [], 1, 1⟩).2).1 =
      (getCPLState "float" "float" "digamma" ⟨[("floatfloat", 0)], [], 1, 1⟩).1 ∧
     (getCPLState "float" "float" "digamma"
        (getCPLState "float" "float" "digamma" ⟨[("floatfloat", 0)], [], 1, 1⟩).2).2 =
      (getCPLState "float" "float" "digamma" ⟨[("floatfloat", 0)], [], 1, 1⟩).2) ∧
    (getCPLState "float" "float" "digamma" ⟨[("floatfloat", 0)], [], 1, 1⟩).2.compileCount = 1 :=
  ⟨(getCPLState_cache_idempotent "float" "float" "digamma" ⟨[("floatfloat", 0)], [], 1, 1⟩).1,
   (getCPLState_cache_idempotent "float" "float" "digamma" ⟨[("floatfloat", 0)], [], 1, 1⟩).2
      0 rfl⟩

/-- Claim C8: in `calc_trigamma` the integer-literal divisions `1/6`,
    `1/3` and `1/42` evaluate to `0`, so the tail correction added after
    the six shift steps equals exactly `(1 + 1/(2x))/x` for every `x`
    reaching that line. -/
theorem trigamma_tail_integer_division (x : ℝ) :
    trigammaTail x = (1 + 1 / (2 * x)) / x ∧
    ((1:ℤ) / 6 = 0 ∧ (1:ℤ) / 3 = 0 ∧ (1:ℤ) / 42 = 0) := by
  constructor
  · unfold trigammaTail
    norm_num
  · norm_num

/-- Claim C9: on the reflection branch (negative non-integer `x`) the
    `digamma` kernel calls `calc_digamma_positive_domain` with `1 - x > 1`,
    so the helper's positive-domain precondition holds there and its shift
    loop runs at most 9 iterations. -/
theorem digamma_reflection_positive_domain (x : ℝ) (h1 : x < 0) (h2 : x ≠ ctrunc x) :
    1 < 1 - x ∧ (digammaShift (1 - x) 0).2.2 ≤ 9 ∧
    digamma (SFl.fin x) =
      Fl.real (calc_digamma_positive_domain (1 - x) - PI / Real.tan (PI * fract x)) := by
  refine ⟨by linarith, ?_, ?_⟩
  · exact digammaShift_steps_le 9 (1 - x) 0 (by push_cast; linarith)
  · unfold digamma
    simp only [SFl.toReal]
    rw [if_pos h1, if_neg h2]

/-- Witness for claim C9 at `x = -3/2`. -/
theorem digamma_reflection_positive_domain_witness :
    1 < 1 - (-(3/2) : ℝ) ∧ (digammaShift (1 - (-(3/2) : ℝ)) 0).2.2 ≤ 9 ∧
    digamma (SFl.fin (-(3/2))) =
      Fl.real (calc_digamma_positive_domain (1 - (-(3/2) : ℝ)) -
        PI / Real.tan (PI * fract (-(3/2)))) :=
  digamma_reflection_positive_domain (-(3/2)) (by norm_num)
    (by
      have h : ctrunc (-(3/2) : ℝ) = -1 := by
        unfold ctrunc
        rw [if_neg (by norm_num)]
        have hc : ⌈(-(3/2) : ℝ)⌉ = -1 := by
          rw [Int.ceil_eq_iff]
          constructor <;> norm_num
        rw [hc]
        norm_num
      rw [h]
      norm_num)

/-- Claim C10: for every `(x, q)` passing `calc_zeta`'s guard checks, the
    direct-summation while loop terminates: a finite fuel makes the
    fuel-indexed loop finish with the value of the loop. -/
theorem zeta_direct_sum_terminates (x q : ℝ) (hx : 1 < x)
    (hq : 0 < q ∨ (q ≤ 0 ∧ q ≠ ctrunc q ∧ x = ctrunc x)) :
    ∃ n, zetaLoopFuel n x (q ^ (-x)) q 0 0 = some (zetaLoop x (q ^ (-x)) q 0 0) :=
  ⟨(9 - 0) + ⌊(10:ℝ) - q⌋₊, zetaLoopFuel_eq _ x (q ^ (-x)) q 0 0 le_rfl⟩

/-- Witness for claim C10 at `x = 2`, `q = 1`. -/
theorem zeta_direct_sum_terminates_witness :
    ∃ n, zetaLoopFuel n 2 ((1:ℝ) ^ (-(2:ℝ))) 1 0 0 =
      some (zetaLoop 2 ((1:ℝ) ^ (-(2:ℝ))) 1 0 0) :=
  zeta_direct_sum_terminates 2 1 (by norm_num) (Or.inl (by norm_num))
